import Mathlib

/-!
# Execution contexts of the embedded PHP engine

A shallow embedding of `engine/context.go`: the `Context` struct and its
`NewContext`, `Bind`, `Exec`, `Eval` and `Destroy` operations.

The Go code drives code that lives outside `context.go`: the C functions
`context_new`, `context_bind`, `context_exec`, `context_eval`,
`context_destroy`, the libc `free`, and the Value bridge (`NewValue`,
`NewValueFromPtr`, `Value.Ptr`, `Value.Destroy`).  Every such call is recorded
as an event of a trace, and what a call answers is read from an environment
`Env` that sees the events recorded so far, so that the statements below hold
for every behaviour of that outside code.

Conventions of the embedding:
* a Go pointer or C pointer is an `Option`, with `none` for nil;
* a Go map is an `Option` of an association list, with `none` for the nil map;
* a Go `error` is its message, and a returned `error` is `none` when nil;
* cgo reports a non-nil `err` exactly when the C call left `errno` non-zero;
* a Go string is handed to C through `C.CString`, whose result the C side reads
  as a NUL-terminated string: the recorded event, and the environment, get
  `CString s`, the string cut at its first NUL byte; the deferred `free` of
  these host-side copies is not recorded;
* a run-time panic is an explicit outcome `Ret.panic`.
-/

namespace GoPhp

/-- A Go error value, represented by its message. -/
abbrev GoError := String

/-- A C pointer; `none` is the nil pointer. -/
abbrev CPtr := Option Nat

/-- A Go map with string keys; `none` is the nil map, `some l` an allocated map
holding the entries of `l`. -/
abbrev GoMap (α : Type) := Option (List (String × α))

/-- The entry of key `k` in a Go map (reading a nil map finds nothing). -/
def GoMap.get? {α : Type} (m : GoMap α) (k : String) : Option α :=
  match m with
  | none => none
  | some l => (l.find? (fun kv => kv.1 = k)).map (fun kv => kv.2)

/-- The map write `m[k] = v` on an allocated map: any entry of `k` is dropped
and the new one is stored. -/
def mapAssign {α : Type} (l : List (String × α)) (k : String) (v : α) :
    List (String × α) :=
  (k, v) :: l.filter (fun kv => kv.1 ≠ k)

/-- What the C side reads from the copy `C.CString(s)` makes: the string up to
its first NUL byte (in UTF-8 the byte 0 occurs only as the character of code
0), so the whole string when it has none. -/
def CString (s : String) : String :=
  ⟨s.data.takeWhile (fun c => c ≠ Char.ofNat 0)⟩

/-- The calls `context.go` makes into code outside the file, with what they
were given and what they answered.  String arguments of the C functions are
the strings as C reads them. -/
inductive Call (HostVal Value : Type) where
  | NewValue (val : HostVal) (res : Except GoError Value)
  | NewValueFromPtr (ptr : CPtr) (res : Except GoError Value)
  | Value_Destroy (v : Value)
  | context_new (ptr : CPtr) (errno : Nat)
  | context_bind (context : CPtr) (name : String) (value : CPtr)
  | context_exec (context : CPtr) (filename : String) (errno : Nat)
  | context_eval (context : CPtr) (script : String) (result : CPtr) (errno : Nat)
  | context_destroy (context : CPtr)
  | free (ptr : CPtr)

/-- The behaviour of the code outside `context.go`.  Each answer may depend on
the events recorded so far.  `rangeOrder` is the order in which a `range` loop
visits the entries of a map, which Go leaves unspecified: some rearrangement of
the entries. -/
structure Env (HostVal Value : Type) where
  NewValue : List (Call HostVal Value) → HostVal → Except GoError Value
  Ptr : List (Call HostVal Value) → Value → CPtr
  NewValueFromPtr : List (Call HostVal Value) → CPtr → Except GoError Value
  context_new : List (Call HostVal Value) → CPtr × Nat
  context_exec : List (Call HostVal Value) → CPtr → String → Nat
  context_eval : List (Call HostVal Value) → CPtr → String → CPtr × Nat
  rangeOrder : List (Call HostVal Value) → List (String × Value) → List (String × Value)
  rangeOrder_perm : ∀ t m, (rangeOrder t m).Perm m

/-- The `Context` struct.  `Output` and `Log` hold the identity of the writer,
`Header` is the `http.Header` map, `context` the guest handle and `values` the
owned-Value map. -/
structure Context (Value : Type) where
  Output : Option Nat
  Log : Option Nat
  Header : GoMap (List String)
  context : CPtr
  values : GoMap Value

/-- A Context together with the calls made so far. -/
structure State (HostVal Value : Type) where
  ctx : Context Value
  trace : List (Call HostVal Value)

/-- How a method call ends: it returns `a`, or it panics. -/
inductive Ret (α : Type) where
  | ret (a : α)
  | panic (msg : String)

variable {HostVal Value : Type}

/-- The Values a `range` over the owned-Value map would visit, in stored order
(none for the nil map). -/
def owned (c : Context Value) : List Value :=
  match c.values with
  | none => []
  | some m => m.map (fun kv => kv.2)

/-- The Values on which `Value.Destroy` was called, in call order. -/
def destroyed (t : List (Call HostVal Value)) : List Value :=
  t.filterMap (fun ev => match ev with
    | Call.Value_Destroy v => some v
    | _ => none)

/-- The handles given to `context_destroy`, in call order. -/
def contextDestroys (t : List (Call HostVal Value)) : List CPtr :=
  t.filterMap (fun ev => match ev with
    | Call.context_destroy h => some h
    | _ => none)

/-- The calls of `context_bind`, as (handle, name, value pointer). -/
def contextBinds (t : List (Call HostVal Value)) : List (CPtr × String × CPtr) :=
  t.filterMap (fun ev => match ev with
    | Call.context_bind h n p => some (h, n, p)
    | _ => none)

/-- The calls of `context_exec`, as (handle, file name). -/
def contextExecs (t : List (Call HostVal Value)) : List (CPtr × String) :=
  t.filterMap (fun ev => match ev with
    | Call.context_exec h f _ => some (h, f)
    | _ => none)

/-- The calls of `context_eval`, as (handle, code). -/
def contextEvals (t : List (Call HostVal Value)) : List (CPtr × String) :=
  t.filterMap (fun ev => match ev with
    | Call.context_eval h s _ _ => some (h, s)
    | _ => none)

/-- `NewContext`: allocates the Context with fresh `Header` and `values` maps,
asks the engine for a handle, and fails when that call reports an error.
Returns the trace and the Go result pair `(*Context, error)`. -/
def NewContext (e : Env HostVal Value) (t : List (Call HostVal Value)) :
    List (Call HostVal Value) × (Option (Context Value) × Option GoError) :=
  let ctx : Context Value :=
    { Output := none, Log := none, Header := some [], context := none, values := some [] }
  let r := e.context_new t
  let t1 := t ++ [Call.context_new r.1 r.2]
  if r.2 ≠ 0 then
    (t1, (none, some "Failed to initialize context for PHP engine"))
  else
    (t1, (some { ctx with context := r.1 }, none))

/-- `Context.Bind`. -/
def Bind (e : Env HostVal Value) (s : State HostVal Value) (name : String) (val : HostVal) :
    State HostVal Value × Ret (Option GoError) :=
  let r := e.NewValue s.trace val
  let t1 := s.trace ++ [Call.NewValue val r]
  match r with
  | Except.error err => ({ s with trace := t1 }, Ret.ret (some err))
  | Except.ok v =>
    let t2 := t1 ++ [Call.context_bind s.ctx.context (CString name) (e.Ptr t1 v)]
    match s.ctx.values with
    | none => ({ s with trace := t2 }, Ret.panic "assignment to entry in nil map")
    | some m =>
      ({ ctx := { s.ctx with values := some (mapAssign m name v) }, trace := t2 },
        Ret.ret none)

/-- `Context.Exec`. -/
def Exec (e : Env HostVal Value) (s : State HostVal Value) (filename : String) :
    State HostVal Value × Ret (Option GoError) :=
  let f := CString filename
  let errno := e.context_exec s.trace s.ctx.context f
  let t1 := s.trace ++ [Call.context_exec s.ctx.context f errno]
  if errno ≠ 0 then
    ({ s with trace := t1 },
      Ret.ret (some ("Error executing script \x27" ++ filename ++ "\x27 in context")))
  else
    ({ s with trace := t1 }, Ret.ret none)

/-- `Context.Eval`.  The Go result pair is `(*Value, error)`. -/
def Eval (e : Env HostVal Value) (s : State HostVal Value) (script : String) :
    State HostVal Value × Ret (Option Value × Option GoError) :=
  let code := CString ("call_user_func(function()\x7b" ++ script ++ "\x7d);")
  let r := e.context_eval s.trace s.ctx.context code
  let t1 := s.trace ++ [Call.context_eval s.ctx.context code r.1 r.2]
  if r.2 ≠ 0 then
    ({ s with trace := t1 },
      Ret.ret (none, some ("Error executing script \x27" ++ script ++ "\x27 in context")))
  else
    let nv := e.NewValueFromPtr t1 r.1
    let t2 := t1 ++ [Call.NewValueFromPtr r.1 nv, Call.free r.1]
    match nv with
    | Except.error err => ({ s with trace := t2 }, Ret.ret (none, some err))
    | Except.ok val => ({ s with trace := t2 }, Ret.ret (some val, none))

/-- `Context.Destroy`. -/
def Destroy (e : Env HostVal Value) (s : State HostVal Value) :
    State HostVal Value × Ret Unit :=
  match s.ctx.context with
  | none => (s, Ret.ret ())
  | some h =>
    let visited :=
      match s.ctx.values with
      | none => []
      | some m => (e.rangeOrder s.trace m).map (fun kv => Call.Value_Destroy kv.2)
    ({ ctx := { s.ctx with values := none, context := none },
       trace := s.trace ++ visited ++ [Call.context_destroy (some h)] }, Ret.ret ())

/-- A method call on a Context. -/
inductive Op (HostVal : Type) where
  | Bind (name : String) (val : HostVal)
  | Exec (filename : String)
  | Eval (script : String)
  | Destroy

/-- The state a method call leaves behind, whether it returned or panicked
(a panic that is recovered leaves the Context as the model has it). -/
def step (e : Env HostVal Value) (s : State HostVal Value) : Op HostVal → State HostVal Value
  | Op.Bind name val => (Bind e s name val).1
  | Op.Exec filename => (Exec e s filename).1
  | Op.Eval script => (Eval e s script).1
  | Op.Destroy => (Destroy e s).1

/-- A sequence of method calls on one Context, first call first. -/
def run (e : Env HostVal Value) (s : State HostVal Value) (ops : List (Op HostVal)) :
    State HostVal Value :=
  ops.foldl (step e) s

/-- The state of a Context on which `Destroy` was called and then the calls
`ops` were made. -/
def afterDestroy (e : Env HostVal Value) (s : State HostVal Value) (ops : List (Op HostVal)) :
    State HostVal Value :=
  run e (Destroy e s).1 ops

/-- `Destroy` called `n` times in a row. -/
def destroyN (e : Env HostVal Value) : Nat → State HostVal Value → State HostVal Value
  | 0, s => s
  | n + 1, s => destroyN e n (Destroy e s).1

/-- An environment for examples: conversion rejects the host value `0` and
otherwise makes a fresh Value, numbered by the count of calls so far; the
engine answers every call without error. -/
def sampleEnv : Env Nat Nat where
  NewValue := fun t val => if val = 0 then Except.error "unsupported type" else Except.ok t.length
  Ptr := fun _ v => some (100 + v)
  NewValueFromPtr := fun t _ => Except.ok t.length
  context_new := fun _ => (some 1, 0)
  context_exec := fun _ _ _ => 0
  context_eval := fun _ _ _ => (some 7, 0)
  rangeOrder := fun _ m => m
  rangeOrder_perm := fun _ _ => List.Perm.refl _

/-- The Context `NewContext` makes in `sampleEnv`, with its trace. -/
def sampleState : State Nat Nat :=
  { ctx := { Output := none, Log := none, Header := some [], context := some 1, values := some [] },
    trace := [Call.context_new (some 1) 0] }


/-- The sample Context after `Bind("x", 5)`: it owns one Value, numbered 1. -/
def sampleBound : State Nat Nat := (Bind sampleEnv sampleState "x" 5).1

/-- The sample Context after a second `Bind` of the same name, `Bind("x", 6)`. -/
def sampleRebound : State Nat Nat := (Bind sampleEnv sampleBound "x" 6).1

/-- The sample Context after `Bind("x", 5)` and `Destroy`. -/
def sampleDestroyed : State Nat Nat := afterDestroy sampleEnv sampleBound []

/-- An environment like `sampleEnv` whose `context_new` answers the nil pointer
and reports no error. -/
def nullEnv : Env Nat Nat :=
  { sampleEnv with context_new := fun _ => (none, 0) }

/-- The Context `NewContext` makes in `nullEnv`, with its trace: the handle is
nil and the owned-Value map is allocated. -/
def nullState : State Nat Nat :=
  { ctx := { Output := none, Log := none, Header := some [], context := none, values := some [] },
    trace := [Call.context_new none 0] }

/-! ## Strings as C reads them -/

theorem CString_eq_self (s : String) (h : Char.ofNat 0 ∉ s.data) : CString s = s := by
  unfold CString
  have h2 : s.data.takeWhile (fun c => decide (c ≠ Char.ofNat 0)) = s.data := by
    rw [List.takeWhile_eq_self_iff]
    intro c hc
    simp only [ne_eq, decide_not, Bool.not_eq_true', decide_eq_false_iff_not]
    intro hc0
    exact h (hc0 ▸ hc)
  rw [h2]

theorem CString_wrapped (script : String) (h : Char.ofNat 0 ∉ script.data) :
    CString ("call_user_func(function()\x7b" ++ script ++ "\x7d);")
      = "call_user_func(function()\x7b" ++ script ++ "\x7d);" := by
  apply CString_eq_self
  simp only [String.data_append, List.mem_append, not_or]
  exact ⟨⟨by decide, h⟩, by decide⟩

/-! ## The recorded calls -/

theorem destroyed_append (t u : List (Call HostVal Value)) :
    destroyed (t ++ u) = destroyed t ++ destroyed u := by
  simp [destroyed, List.filterMap_append]

theorem contextDestroys_append (t u : List (Call HostVal Value)) :
    contextDestroys (t ++ u) = contextDestroys t ++ contextDestroys u := by
  simp [contextDestroys, List.filterMap_append]

theorem contextEvals_append (t u : List (Call HostVal Value)) :
    contextEvals (t ++ u) = contextEvals t ++ contextEvals u := by
  simp [contextEvals, List.filterMap_append]

theorem contextExecs_append (t u : List (Call HostVal Value)) :
    contextExecs (t ++ u) = contextExecs t ++ contextExecs u := by
  simp [contextExecs, List.filterMap_append]

theorem contextBinds_append (t u : List (Call HostVal Value)) :
    contextBinds (t ++ u) = contextBinds t ++ contextBinds u := by
  simp [contextBinds, List.filterMap_append]

theorem destroyed_map_Value_Destroy (l : List (String × Value)) :
    destroyed (l.map (fun kv => (Call.Value_Destroy kv.2 : Call HostVal Value)))
      = l.map (fun kv => kv.2) := by
  induction l with
  | nil => rfl
  | cons a l ih => simp_all [destroyed]

theorem contextDestroys_map_Value_Destroy (l : List (String × Value)) :
    contextDestroys (l.map (fun kv => (Call.Value_Destroy kv.2 : Call HostVal Value))) = [] := by
  induction l with
  | nil => rfl
  | cons a l ih => simp_all [contextDestroys]

/-! ## The owned-Value map -/

theorem owned_of_get? (c : Context Value) (name : String) (v : Value)
    (h : c.values.get? name = some v) : v ∈ owned c := by
  unfold GoMap.get? at h
  unfold owned
  cases hm : c.values with
  | none => simp [hm] at h
  | some m =>
    simp only [hm, Option.map_eq_some'] at h
    obtain ⟨kv, hkv, rfl⟩ := h
    exact List.mem_map_of_mem _ (List.mem_of_find?_eq_some hkv)

theorem get?_mapAssign_self (m : List (String × Value)) (k : String) (v : Value) :
    GoMap.get? (some (mapAssign m k v)) k = some v := by
  simp [GoMap.get?, mapAssign]

theorem find?_filter_ne (m : List (String × Value)) (k k' : String) (hk : k' ≠ k) :
    (m.filter (fun kv => kv.1 ≠ k)).find? (fun kv => kv.1 = k')
      = m.find? (fun kv => kv.1 = k') := by
  rw [List.find?_filter]
  congr 1
  funext kv
  by_cases h : kv.1 = k'
  · simp [h, hk]
  · simp [h]

theorem get?_mapAssign_other (m : List (String × Value)) (k k' : String) (v : Value)
    (hk : k' ≠ k) :
    GoMap.get? (some (mapAssign m k v)) k' = GoMap.get? (some m) k' := by
  have h2 : ¬ k = k' := fun h => hk h.symm
  simp only [GoMap.get?, mapAssign, List.find?_cons, h2, decide_False,
    find?_filter_ne m k k' hk]

/-! ## `Destroy` -/

theorem Destroy_nil (e : Env HostVal Value) (s : State HostVal Value)
    (h : s.ctx.context = none) : Destroy e s = (s, Ret.ret ()) := by
  simp [Destroy, h]

theorem Destroy_context (e : Env HostVal Value) (s : State HostVal Value) :
    (Destroy e s).1.ctx.context = none := by
  unfold Destroy
  cases h : s.ctx.context <;> simp [h]

theorem Destroy_ret (e : Env HostVal Value) (s : State HostVal Value) :
    (Destroy e s).2 = Ret.ret () := by
  unfold Destroy
  cases h : s.ctx.context <;> simp

theorem Destroy_Destroy (e : Env HostVal Value) (s : State HostVal Value) :
    (Destroy e (Destroy e s).1).1 = (Destroy e s).1 := by
  rw [Destroy_nil e _ (Destroy_context e s)]

theorem destroyN_Destroy (e : Env HostVal Value) (s : State HostVal Value) (n : Nat) :
    destroyN e n (Destroy e s).1 = (Destroy e s).1 := by
  induction n with
  | zero => rfl
  | succ k ih => simp only [destroyN]; rw [Destroy_Destroy, ih]

theorem Destroy_values (e : Env HostVal Value) (s : State HostVal Value)
    (hinv : s.ctx.context = none → s.ctx.values = none) :
    (Destroy e s).1.ctx.values = none := by
  cases hh : s.ctx.context with
  | none => rw [Destroy_nil e s hh]; exact hinv hh
  | some h => simp [Destroy, hh]

/-- The calls one `Destroy` adds on a Context with a non-nil handle: a
`Value.Destroy` per entry of the owned-Value map, in whatever order the `range`
loop takes, and `context_destroy` on the handle. -/
theorem Destroy_releases (e : Env HostVal Value) (s : State HostVal Value) (h : Nat)
    (hh : s.ctx.context = some h) :
    ∃ evs, (Destroy e s).1.trace = s.trace ++ evs ∧
      (destroyed evs).Perm (owned s.ctx) ∧ contextDestroys evs = [some h] := by
  cases hm : s.ctx.values with
  | none =>
    refine ⟨[Call.context_destroy (some h)], ?_, ?_, ?_⟩
    · simp [Destroy, hh, hm]
    · simp [destroyed, owned, hm]
    · simp [contextDestroys]
  | some m =>
    refine ⟨(e.rangeOrder s.trace m).map (fun kv => Call.Value_Destroy kv.2)
      ++ [Call.context_destroy (some h)], ?_, ?_, ?_⟩
    · simp [Destroy, hh, hm]
    · rw [destroyed_append, destroyed_map_Value_Destroy]
      simp only [owned, hm]
      simpa [destroyed] using (e.rangeOrder_perm s.trace m).map (fun kv => kv.2)
    · rw [contextDestroys_append, contextDestroys_map_Value_Destroy]
      simp [contextDestroys]

theorem Destroy_destroyed (e : Env HostVal Value) (s : State HostVal Value) :
    (destroyed (Destroy e s).1.trace).Perm
      (destroyed s.trace ++ (match s.ctx.context with
        | none => []
        | some _ => owned s.ctx)) := by
  cases hh : s.ctx.context with
  | none => rw [Destroy_nil e s hh]; simp
  | some h =>
    obtain ⟨evs, h2, h3, _⟩ := Destroy_releases e s h hh
    rw [h2, destroyed_append]
    exact List.Perm.append_left _ h3

/-! ## `Bind` -/

theorem Bind_error (e : Env HostVal Value) (s : State HostVal Value) (name : String)
    (val : HostVal) (err : GoError) (h : e.NewValue s.trace val = Except.error err) :
    Bind e s name val
      = ({ s with trace := s.trace ++ [Call.NewValue val (Except.error err)] },
          Ret.ret (some err)) := by
  simp [Bind, h]

theorem Bind_ok_nil (e : Env HostVal Value) (s : State HostVal Value) (name : String)
    (val : HostVal) (v : Value) (h : e.NewValue s.trace val = Except.ok v)
    (hm : s.ctx.values = none) :
    Bind e s name val
      = ({ s with trace := s.trace ++ [Call.NewValue val (Except.ok v)] ++
            [Call.context_bind s.ctx.context (CString name)
              (e.Ptr (s.trace ++ [Call.NewValue val (Except.ok v)]) v)] },
          Ret.panic "assignment to entry in nil map") := by
  simp [Bind, h, hm]

theorem Bind_ok_some (e : Env HostVal Value) (s : State HostVal Value) (name : String)
    (val : HostVal) (v : Value) (m : List (String × Value))
    (h : e.NewValue s.trace val = Except.ok v) (hm : s.ctx.values = some m) :
    Bind e s name val
      = ({ ctx := { s.ctx with values := some (mapAssign m name v) },
           trace := s.trace ++ [Call.NewValue val (Except.ok v)] ++
            [Call.context_bind s.ctx.context (CString name)
              (e.Ptr (s.trace ++ [Call.NewValue val (Except.ok v)]) v)] },
          Ret.ret none) := by
  simp [Bind, h, hm]

theorem Bind_context (e : Env HostVal Value) (s : State HostVal Value) (name : String)
    (val : HostVal) : (Bind e s name val).1.ctx.context = s.ctx.context := by
  cases hv : e.NewValue s.trace val with
  | error err => rw [Bind_error e s name val err hv]
  | ok v =>
    cases hm : s.ctx.values with
    | none => rw [Bind_ok_nil e s name val v hv hm]
    | some m => rw [Bind_ok_some e s name val v m hv hm]

theorem Bind_ctx_of_nil (e : Env HostVal Value) (s : State HostVal Value) (name : String)
    (val : HostVal) (hm : s.ctx.values = none) : (Bind e s name val).1.ctx = s.ctx := by
  cases hv : e.NewValue s.trace val with
  | error err => rw [Bind_error e s name val err hv]
  | ok v => rw [Bind_ok_nil e s name val v hv hm]

theorem Bind_values_ne_none (e : Env HostVal Value) (s : State HostVal Value) (name : String)
    (val : HostVal) (hm : s.ctx.values ≠ none) : (Bind e s name val).1.ctx.values ≠ none := by
  cases hv : e.NewValue s.trace val with
  | error err => rw [Bind_error e s name val err hv]; exact hm
  | ok v =>
    cases hs : s.ctx.values with
    | none => exact absurd hs hm
    | some m => rw [Bind_ok_some e s name val v m hv hs]; simp

theorem Bind_no_panic (e : Env HostVal Value) (s : State HostVal Value) (name : String)
    (val : HostVal) (hm : s.ctx.values ≠ none) (msg : String) :
    (Bind e s name val).2 ≠ Ret.panic msg := by
  cases hv : e.NewValue s.trace val with
  | error err => rw [Bind_error e s name val err hv]; simp
  | ok v =>
    cases hs : s.ctx.values with
    | none => exact absurd hs hm
    | some m => rw [Bind_ok_some e s name val v m hv hs]; simp

/-! ## `Exec` and `Eval` -/

theorem Exec_ctx (e : Env HostVal Value) (s : State HostVal Value) (filename : String) :
    (Exec e s filename).1.ctx = s.ctx := by
  unfold Exec
  simp only []
  split <;> rfl

theorem Eval_ctx (e : Env HostVal Value) (s : State HostVal Value) (script : String) :
    (Eval e s script).1.ctx = s.ctx := by
  unfold Eval
  simp only []
  split
  · rfl
  · split <;> rfl

theorem Eval_destroyed (e : Env HostVal Value) (s : State HostVal Value) (script : String) :
    destroyed (Eval e s script).1.trace = destroyed s.trace := by
  unfold Eval
  simp only []
  split
  · simp [destroyed_append, destroyed]
  · split <;> simp [destroyed_append, destroyed]

theorem contextEvals_Eval (e : Env HostVal Value) (s : State HostVal Value) (script : String) :
    contextEvals (Eval e s script).1.trace
      = contextEvals s.trace
        ++ [(s.ctx.context,
              CString ("call_user_func(function()\x7b" ++ script ++ "\x7d);"))] := by
  unfold Eval
  simp only []
  split
  · simp [contextEvals_append, contextEvals]
  · split <;> simp [contextEvals_append, contextEvals]

/-- The code handed to the engine for the empty script. -/
theorem wrapped_empty_script :
    contextEvals (Eval sampleEnv sampleState "").1.trace
      = [(some 1, "call_user_func(function()\x7b\x7d);")] := by
  decide

/-! ## Sequences of calls -/

theorem step_context_none (e : Env HostVal Value) (s : State HostVal Value) (op : Op HostVal)
    (hc : s.ctx.context = none) : (step e s op).ctx.context = none := by
  cases op with
  | Bind name val => simp only [step]; rw [Bind_context]; exact hc
  | Exec filename => simp only [step]; rw [Exec_ctx]; exact hc
  | Eval script => simp only [step]; rw [Eval_ctx]; exact hc
  | Destroy => exact Destroy_context e s

theorem run_context_none (e : Env HostVal Value) (ops : List (Op HostVal)) :
    ∀ s : State HostVal Value, s.ctx.context = none → (run e s ops).ctx.context = none := by
  induction ops with
  | nil => intro s hc; exact hc
  | cons op ops ih => intro s hc; exact ih (step e s op) (step_context_none e s op hc)

theorem afterDestroy_context (e : Env HostVal Value) (s : State HostVal Value)
    (ops : List (Op HostVal)) : (afterDestroy e s ops).ctx.context = none :=
  run_context_none e ops _ (Destroy_context e s)

theorem step_destroyed (e : Env HostVal Value) (s : State HostVal Value) (op : Op HostVal)
    (hc : s.ctx.context = none) (hm : s.ctx.values = none) :
    (step e s op).ctx.context = none ∧ (step e s op).ctx.values = none := by
  cases op with
  | Bind name val => simp only [step]; rw [Bind_ctx_of_nil e s name val hm]; exact ⟨hc, hm⟩
  | Exec filename => simp only [step]; rw [Exec_ctx]; exact ⟨hc, hm⟩
  | Eval script => simp only [step]; rw [Eval_ctx]; exact ⟨hc, hm⟩
  | Destroy => simp only [step]; rw [Destroy_nil e s hc]; exact ⟨hc, hm⟩

theorem run_destroyed (e : Env HostVal Value) (ops : List (Op HostVal)) :
    ∀ s : State HostVal Value, s.ctx.context = none → s.ctx.values = none →
      (run e s ops).ctx.context = none ∧ (run e s ops).ctx.values = none := by
  induction ops with
  | nil => intro s hc hm; exact ⟨hc, hm⟩
  | cons op ops ih =>
    intro s hc hm
    have h := step_destroyed e s op hc hm
    exact ih (step e s op) h.1 h.2

theorem step_values_ne_none (e : Env HostVal Value) (s : State HostVal Value) (op : Op HostVal)
    (hop : op ≠ Op.Destroy) (hm : s.ctx.values ≠ none) : (step e s op).ctx.values ≠ none := by
  cases op with
  | Bind name val => exact Bind_values_ne_none e s name val hm
  | Exec filename => simp only [step]; rw [Exec_ctx]; exact hm
  | Eval script => simp only [step]; rw [Eval_ctx]; exact hm
  | Destroy => exact absurd rfl hop

theorem run_values_ne_none (e : Env HostVal Value) (ops : List (Op HostVal)) :
    ∀ s : State HostVal Value, (∀ op ∈ ops, op ≠ Op.Destroy) → s.ctx.values ≠ none →
      (run e s ops).ctx.values ≠ none := by
  induction ops with
  | nil => intro s _ hm; exact hm
  | cons op ops ih =>
    intro s hops hm
    exact ih (step e s op) (fun o ho => hops o (List.mem_cons_of_mem _ ho))
      (step_values_ne_none e s op (hops op (List.mem_cons_self _ _)) hm)

theorem NewContext_ok (e : Env HostVal Value) (t : List (Call HostVal Value))
    (ctx : Context Value) (h : (NewContext e t).2 = (some ctx, none)) :
    ctx = { Output := none, Log := none, Header := some [], context := (e.context_new t).1,
            values := some [] } := by
  unfold NewContext at h
  simp only [] at h
  split at h
  · simp at h
  · simp at h
    exact h.symm

/-- A nil handle together with a nil owned-Value map only: this holds of the
Context `NewContext` returns whenever `context_new` answered a non-nil handle. -/
theorem NewContext_inv (e : Env HostVal Value) (t : List (Call HostVal Value))
    (ctx : Context Value) (h : (NewContext e t).2 = (some ctx, none))
    (hp : (e.context_new t).1 ≠ none) : ctx.context = none → ctx.values = none := by
  rw [NewContext_ok e t ctx h]
  intro hc
  exact absurd hc hp

/-- Every method call keeps a nil handle together with a nil owned-Value map. -/
theorem step_inv (e : Env HostVal Value) (s : State HostVal Value) (op : Op HostVal)
    (hinv : s.ctx.context = none → s.ctx.values = none) :
    (step e s op).ctx.context = none → (step e s op).ctx.values = none := by
  cases op with
  | Bind name val =>
    simp only [step]
    rw [Bind_context]
    intro hc
    rw [Bind_ctx_of_nil e s name val (hinv hc)]
    exact hinv hc
  | Exec filename => simp only [step]; rw [Exec_ctx]; exact hinv
  | Eval script => simp only [step]; rw [Eval_ctx]; exact hinv
  | Destroy => intro _; exact Destroy_values e s hinv

theorem run_inv (e : Env HostVal Value) (ops : List (Op HostVal)) :
    ∀ s : State HostVal Value, (s.ctx.context = none → s.ctx.values = none) →
      (run e s ops).ctx.context = none → (run e s ops).ctx.values = none := by
  induction ops with
  | nil => intro s hinv; exact hinv
  | cons op ops ih => intro s hinv; exact ih (step e s op) (step_inv e s op hinv)

/-- The sample state is what `NewContext` returns in `sampleEnv`. -/
theorem NewContext_sample :
    NewContext sampleEnv [] = (sampleState.trace, (some sampleState.ctx, none)) := rfl

/-! ## The claims -/

/-- Claim C1: `Destroy` is idempotent.  For every Context, live or already
destroyed, and every `n ≥ 1`, calling `Destroy` `n` times in a row leaves the
same state (guest handle, owned-Value map and calls made) as calling it once;
no call panics; and the calls added over the whole run are none when the handle
was already nil, and otherwise one `context_destroy` on the handle and one
`Value.Destroy` per entry of the owned-Value map. -/
theorem Destroy_idempotent (e : Env HostVal Value) (s : State HostVal Value) (n : Nat)
    (hn : 1 ≤ n) :
    destroyN e n s = (Destroy e s).1 ∧
    (∀ k, (Destroy e (destroyN e k s)).2 = Ret.ret ()) ∧
    ∃ evs, (destroyN e n s).trace = s.trace ++ evs ∧
      ((s.ctx.context = none ∧ evs = []) ∨
       (∃ h, s.ctx.context = some h ∧ (destroyed evs).Perm (owned s.ctx) ∧
          contextDestroys evs = [some h])) := by
  obtain ⟨k, rfl⟩ : ∃ k, n = k + 1 := ⟨n - 1, by omega⟩
  have h1 : destroyN e (k + 1) s = (Destroy e s).1 := by
    simp only [destroyN]; exact destroyN_Destroy e s k
  refine ⟨h1, fun j => Destroy_ret e _, ?_⟩
  rw [h1]
  cases hh : s.ctx.context with
  | none => exact ⟨[], by rw [Destroy_nil e s hh]; simp, Or.inl ⟨rfl, rfl⟩⟩
  | some h =>
    obtain ⟨evs, h2, h3, h4⟩ := Destroy_releases e s h hh
    exact ⟨evs, h2, Or.inr ⟨h, rfl, h3, h4⟩⟩

theorem Destroy_idempotent_witness :
    1 ≤ 3 ∧ destroyN sampleEnv 3 sampleBound = (Destroy sampleEnv sampleBound).1 :=
  ⟨by decide, (Destroy_idempotent sampleEnv sampleBound 3 (by decide)).1⟩

/-- Claim C2: for every Context whose guest handle is non-nil, `Destroy`
returns, and afterwards the handle is nil, the owned-Value map is cleared (it
is the nil map), and the calls `Destroy` made are `Value.Destroy` on exactly the
Values of the owned-Value map, hence on every Value stored under some name, and
`context_destroy` on the former handle. -/
theorem Destroy_live (e : Env HostVal Value) (s : State HostVal Value) (h : Nat)
    (hh : s.ctx.context = some h) :
    (Destroy e s).2 = Ret.ret () ∧
    (Destroy e s).1.ctx.context = none ∧ (Destroy e s).1.ctx.values = none ∧
    ∃ evs, (Destroy e s).1.trace = s.trace ++ evs ∧
      (destroyed evs).Perm (owned s.ctx) ∧
      (∀ name v, s.ctx.values.get? name = some v → v ∈ destroyed evs) ∧
      contextDestroys evs = [some h] := by
  refine ⟨Destroy_ret e s, Destroy_context e s, by simp [Destroy, hh], ?_⟩
  obtain ⟨evs, h2, h3, h4⟩ := Destroy_releases e s h hh
  exact ⟨evs, h2, h3, fun name v hv => h3.mem_iff.mpr (owned_of_get? _ name v hv), h4⟩

theorem Destroy_live_witness :
    sampleBound.ctx.context = some 1 ∧
    (Destroy sampleEnv sampleBound).1.ctx.context = none ∧
    (Destroy sampleEnv sampleBound).1.ctx.values = none :=
  ⟨rfl, (Destroy_live sampleEnv sampleBound 1 rfl).2.1,
    (Destroy_live sampleEnv sampleBound 1 rfl).2.2.1⟩

/-- Claim C3, evaluated on `NewContext(); Bind("x", 5); Bind("x", 6); Destroy()`:
after the first `Bind` the map holds Value 1 under `"x"`; the second `Bind`
returns nil and the map then holds Value 3 under `"x"` only; no `Value.Destroy`
call has been made, so Value 1 is neither released nor in the map; and a
following `Destroy` releases Value 3 alone. -/
theorem Bind_rebind_drops_unreleased :
    sampleBound.ctx.values = some [("x", 1)] ∧
    (Bind sampleEnv sampleBound "x" 6).2 = Ret.ret none ∧
    sampleRebound.ctx.values = some [("x", 3)] ∧
    destroyed sampleRebound.trace = [] ∧
    destroyed (Destroy sampleEnv sampleRebound).1.trace = [3] := by
  refine ⟨by decide, rfl, by decide, by decide, by decide⟩

/-- Claim C4 fails as stated: on the sample Context after `Destroy`,
`Bind("y", 5)` hands the nil handle to `context_bind` and then panics on the
write to the nil map instead of returning an error, and, the engine reporting
no error, `Exec("a.php")` returns nil after handing the nil handle to
`context_exec` and `Eval("1;")` returns a Value and a nil error. -/
theorem after_Destroy_counterexample :
    (Bind sampleEnv sampleDestroyed "y" 5).2 = Ret.panic "assignment to entry in nil map" ∧
    contextBinds (Bind sampleEnv sampleDestroyed "y" 5).1.trace
      = [(some 1, "x", some 101), (none, "y", some 105)] ∧
    (Exec sampleEnv sampleDestroyed "a.php").2 = Ret.ret none ∧
    contextExecs (Exec sampleEnv sampleDestroyed "a.php").1.trace = [(none, "a.php")] ∧
    (Eval sampleEnv sampleDestroyed "1;").2 = Ret.ret (some 6, none) := by
  refine ⟨rfl, by decide, rfl, by decide, rfl⟩

/-- Claim C4, amended: for every Context on which `Destroy` has been called,
whatever calls followed, the guest handle is nil and no `Bind`, `Exec` or
`Eval` checks for it.  `Bind` returns a non-nil error exactly when `NewValue`
fails, and when `NewValue` succeeds it passes the nil handle to `context_bind`;
`Exec` passes the nil handle to `context_exec` and returns a non-nil error
exactly when that call reports one; `Eval` passes the nil handle to
`context_eval` and returns a non-nil error exactly when that call reports one
or `NewValueFromPtr` fails on its result. -/
theorem after_Destroy_no_guard (e : Env HostVal Value) (s : State HostVal Value)
    (ops : List (Op HostVal)) (name : String) (val : HostVal) (filename script : String) :
    (afterDestroy e s ops).ctx.context = none ∧
    ((∃ err, (Bind e (afterDestroy e s ops) name val).2 = Ret.ret (some err)) ↔
      ∃ err, e.NewValue (afterDestroy e s ops).trace val = Except.error err) ∧
    (∀ v, e.NewValue (afterDestroy e s ops).trace val = Except.ok v →
      contextBinds (Bind e (afterDestroy e s ops) name val).1.trace
        = contextBinds (afterDestroy e s ops).trace
          ++ [(none, CString name,
                e.Ptr ((afterDestroy e s ops).trace ++ [Call.NewValue val (Except.ok v)]) v)]) ∧
    ((∃ err, (Exec e (afterDestroy e s ops) filename).2 = Ret.ret (some err)) ↔
      e.context_exec (afterDestroy e s ops).trace none (CString filename) ≠ 0) ∧
    contextExecs (Exec e (afterDestroy e s ops) filename).1.trace
      = contextExecs (afterDestroy e s ops).trace ++ [(none, CString filename)] ∧
    ((∃ err, (Eval e (afterDestroy e s ops) script).2 = Ret.ret (none, some err)) ↔
      ((e.context_eval (afterDestroy e s ops).trace none
          (CString ("call_user_func(function()\x7b" ++ script ++ "\x7d);"))).2 ≠ 0 ∨
        ∃ err, e.NewValueFromPtr
          ((afterDestroy e s ops).trace ++ [Call.context_eval none
            (CString ("call_user_func(function()\x7b" ++ script ++ "\x7d);"))
            (e.context_eval (afterDestroy e s ops).trace none
              (CString ("call_user_func(function()\x7b" ++ script ++ "\x7d);"))).1
            (e.context_eval (afterDestroy e s ops).trace none
              (CString ("call_user_func(function()\x7b" ++ script ++ "\x7d);"))).2])
          (e.context_eval (afterDestroy e s ops).trace none
            (CString ("call_user_func(function()\x7b" ++ script ++ "\x7d);"))).1 = Except.error err)) ∧
    contextEvals (Eval e (afterDestroy e s ops) script).1.trace
      = contextEvals (afterDestroy e s ops).trace
        ++ [(none, CString ("call_user_func(function()\x7b" ++ script ++ "\x7d);"))] := by
  have hd := afterDestroy_context e s ops
  generalize afterDestroy e s ops = d at hd ⊢
  refine ⟨hd, ?_, ?_, ?_, ?_, ?_, ?_⟩
  · cases hv : e.NewValue d.trace val with
    | error err => rw [Bind_error e d name val err hv]; simp
    | ok v =>
      cases hm : d.ctx.values with
      | none => rw [Bind_ok_nil e d name val v hv hm]; simp
      | some m => rw [Bind_ok_some e d name val v m hv hm]; simp
  · intro v hv
    cases hm : d.ctx.values with
    | none =>
      rw [Bind_ok_nil e d name val v hv hm]
      simp [contextBinds_append, contextBinds, hd]
    | some m =>
      rw [Bind_ok_some e d name val v m hv hm]
      simp [contextBinds_append, contextBinds, hd]
  · unfold Exec
    simp only [hd]
    split <;> simp_all
  · unfold Exec
    simp only [hd]
    split <;> simp [contextExecs_append, contextExecs]
  · unfold Eval
    simp only [hd]
    split
    · simp_all
    · split <;> simp_all
  · rw [contextEvals_Eval, hd]

theorem after_Destroy_no_guard_witness :
    sampleEnv.NewValue (afterDestroy sampleEnv sampleBound [Op.Exec "a.php"]).trace 0
      = Except.error "unsupported type" ∧
    ∃ err, (Bind sampleEnv (afterDestroy sampleEnv sampleBound [Op.Exec "a.php"]) "y" 0).2
      = Ret.ret (some err) :=
  ⟨rfl, (after_Destroy_no_guard sampleEnv sampleBound [Op.Exec "a.php"] "y" 0 "a.php"
    "1;").2.1.mpr ⟨"unsupported type", rfl⟩⟩

/-- Claim C5 fails as stated: for the script `1;` + NUL byte + `evil` the
code the engine reads from `Eval` is `call_user_func(function()` + opening
brace + `1;`, cut at the NUL byte, and not the wrapped script. -/
theorem Eval_NUL_script_counterexample :
    contextEvals (Eval sampleEnv sampleState "1;\x00evil").1.trace
      = [(some 1, "call_user_func(function()\x7b1;")] ∧
    "call_user_func(function()\x7b1;"
      ≠ "call_user_func(function()\x7b" ++ "1;\x00evil" ++ "\x7d);" := by
  refine ⟨by decide, by decide⟩

/-- Claim C5, amended: for every script string, the one `context_eval` call
that `Eval` makes receives the Context handle and the C string of
`call_user_func(function()` + opening brace + script + closing brace + `);`,
that is, this string up to its first NUL byte; and for every script without a
NUL byte, the empty one included, the engine reads exactly that whole string,
the script standing in it unaltered. -/
theorem Eval_wraps_script (e : Env HostVal Value) (s : State HostVal Value) (script : String) :
    contextEvals (Eval e s script).1.trace
      = contextEvals s.trace
        ++ [(s.ctx.context, CString ("call_user_func(function()\x7b" ++ script ++ "\x7d);"))] ∧
    (Char.ofNat 0 ∉ script.data →
      contextEvals (Eval e s script).1.trace
        = contextEvals s.trace
          ++ [(s.ctx.context, "call_user_func(function()\x7b" ++ script ++ "\x7d);")]) := by
  refine ⟨contextEvals_Eval e s script, fun h => ?_⟩
  rw [contextEvals_Eval, CString_wrapped script h]

theorem Eval_wraps_script_witness :
    Char.ofNat 0 ∉ "return 5+3;".data ∧
    contextEvals (Eval sampleEnv sampleState "return 5+3;").1.trace
      = contextEvals sampleState.trace
        ++ [(sampleState.ctx.context,
              "call_user_func(function()\x7b" ++ "return 5+3;" ++ "\x7d);")] :=
  ⟨by decide, (Eval_wraps_script sampleEnv sampleState "return 5+3;").2 (by decide)⟩

/-- Claim C6: `Bind` is atomic on conversion failure.  For every Context, name
and host value on which `NewValue` fails, `Bind` returns that error, the only
call it makes is the failed `NewValue` (so `context_bind` is not invoked), and
the Context, its owned-Value map and guest handle included, is unchanged. -/
theorem Bind_conversion_failure (e : Env HostVal Value) (s : State HostVal Value)
    (name : String) (val : HostVal) (err : GoError)
    (h : e.NewValue s.trace val = Except.error err) :
    (Bind e s name val).2 = Ret.ret (some err) ∧
    (Bind e s name val).1.trace = s.trace ++ [Call.NewValue val (Except.error err)] ∧
    contextBinds (Bind e s name val).1.trace = contextBinds s.trace ∧
    (Bind e s name val).1.ctx.values = s.ctx.values ∧
    (Bind e s name val).1.ctx.context = s.ctx.context := by
  rw [Bind_error e s name val err h]
  simp [contextBinds_append, contextBinds]

theorem Bind_conversion_failure_witness :
    sampleEnv.NewValue sampleBound.trace 0 = Except.error "unsupported type" ∧
    (Bind sampleEnv sampleBound "x" 0).2 = Ret.ret (some "unsupported type") ∧
    (Bind sampleEnv sampleBound "x" 0).1.ctx.values = sampleBound.ctx.values :=
  ⟨rfl, (Bind_conversion_failure sampleEnv sampleBound "x" 0 "unsupported type" rfl).1,
    (Bind_conversion_failure sampleEnv sampleBound "x" 0 "unsupported type" rfl).2.2.2.1⟩

/-- Claim C7 fails as stated: for the name `a` + NUL byte + `b` on the sample
Context, `Bind` returns nil and stores the new Value under the whole name, but
the name `context_bind` receives is `a`, the name cut at the NUL byte. -/
theorem Bind_NUL_name_counterexample :
    (Bind sampleEnv sampleState "a\x00b" 5).2 = Ret.ret none ∧
    (Bind sampleEnv sampleState "a\x00b" 5).1.ctx.values = some [("a\x00b", 1)] ∧
    contextBinds (Bind sampleEnv sampleState "a\x00b" 5).1.trace = [(some 1, "a", some 101)] ∧
    "a" ≠ "a\x00b" := by
  refine ⟨rfl, by decide, by decide, by decide⟩

/-- Claim C7, amended: for every live Context (its owned-Value map is
allocated, as it is from `NewContext` until `Destroy`), name and host value for
which `NewValue` succeeds with a Value `v`, `Bind` returns nil, makes one
`context_bind` call, with the Context handle, the name as a C string (the name
up to its first NUL byte, so the name itself when it has none) and the pointer
of `v`, and afterwards the owned-Value map maps the whole name to `v` while the
entry of every other name, and the handle, are unchanged. -/
theorem Bind_success (e : Env HostVal Value) (s : State HostVal Value) (name : String)
    (val : HostVal) (v : Value) (m : List (String × Value))
    (hm : s.ctx.values = some m) (hv : e.NewValue s.trace val = Except.ok v) :
    (Bind e s name val).2 = Ret.ret none ∧
    contextBinds (Bind e s name val).1.trace
      = contextBinds s.trace
        ++ [(s.ctx.context, CString name,
              e.Ptr (s.trace ++ [Call.NewValue val (Except.ok v)]) v)] ∧
    (Char.ofNat 0 ∉ name.data →
      contextBinds (Bind e s name val).1.trace
        = contextBinds s.trace
          ++ [(s.ctx.context, name,
                e.Ptr (s.trace ++ [Call.NewValue val (Except.ok v)]) v)]) ∧
    (Bind e s name val).1.ctx.values.get? name = some v ∧
    (∀ other, other ≠ name →
      (Bind e s name val).1.ctx.values.get? other = s.ctx.values.get? other) ∧
    (Bind e s name val).1.ctx.context = s.ctx.context := by
  rw [Bind_ok_some e s name val v m hv hm]
  refine ⟨rfl, ?_, ?_, get?_mapAssign_self m name v, ?_, rfl⟩
  · simp [contextBinds_append, contextBinds]
  · intro h0
    simp [contextBinds_append, contextBinds, CString_eq_self name h0]
  · intro other ho
    rw [hm]
    exact get?_mapAssign_other m name other v ho

theorem Bind_success_witness :
    sampleBound.ctx.values = some [("x", 1)] ∧
    sampleEnv.NewValue sampleBound.trace 6 = Except.ok 3 ∧
    Char.ofNat 0 ∉ "y".data ∧
    (Bind sampleEnv sampleBound "y" 6).2 = Ret.ret none ∧
    contextBinds (Bind sampleEnv sampleBound "y" 6).1.trace
      = contextBinds sampleBound.trace ++ [(sampleBound.ctx.context, "y",
          sampleEnv.Ptr (sampleBound.trace ++ [Call.NewValue 6 (Except.ok 3)]) 3)] ∧
    (Bind sampleEnv sampleBound "y" 6).1.ctx.values.get? "y" = some 3 :=
  ⟨rfl, rfl, by decide, (Bind_success sampleEnv sampleBound "y" 6 3 [("x", 1)] rfl rfl).1,
    (Bind_success sampleEnv sampleBound "y" 6 3 [("x", 1)] rfl rfl).2.2.1 (by decide),
    (Bind_success sampleEnv sampleBound "y" 6 3 [("x", 1)] rfl rfl).2.2.2.1⟩

/-- Claim C8: `Exec` and `Eval` never change the bookkeeping of the Context.
For every Context, file name and script, whether the call succeeds or fails,
the guest handle and the owned-Value map are the same after the call as
before; and the Value a successful `Eval` returns is not owned by the Context:
the Values a `Destroy` after the `Eval` has released are those a `Destroy`
without the `Eval` releases. -/
theorem Exec_Eval_frame (e : Env HostVal Value) (s : State HostVal Value)
    (filename script : String) :
    (Exec e s filename).1.ctx.context = s.ctx.context ∧
    (Exec e s filename).1.ctx.values = s.ctx.values ∧
    (Eval e s script).1.ctx.context = s.ctx.context ∧
    (Eval e s script).1.ctx.values = s.ctx.values ∧
    (destroyed (Destroy e (Eval e s script).1).1.trace).Perm
      (destroyed (Destroy e s).1.trace) := by
  refine ⟨by rw [Exec_ctx], by rw [Exec_ctx], by rw [Eval_ctx], by rw [Eval_ctx], ?_⟩
  refine (Destroy_destroyed e _).trans (List.Perm.trans ?_ (Destroy_destroyed e s).symm)
  rw [Eval_ctx, Eval_destroyed]

/-- Claim C9 fails as stated: where `context_new` answers the nil pointer
without an error, `NewContext` succeeds with a Context whose handle is nil and
whose owned-Value map is allocated; `Destroy` on it returns at its guard and
changes nothing, and a following `Bind("x", 5)` makes the owned-Value map
non-empty. -/
theorem Destroyed_exit_counterexample :
    NewContext nullEnv [] = (nullState.trace, (some nullState.ctx, none)) ∧
    (Destroy nullEnv nullState).1.ctx.values = some [] ∧
    (afterDestroy nullEnv nullState [Op.Bind "x" 5]).ctx.values = some [("x", 1)] ∧
    owned (afterDestroy nullEnv nullState [Op.Bind "x" 5]).ctx = [1] := by
  refine ⟨rfl, by decide, by decide, by decide⟩

/-- Claim C9, amended: once `Destroy` has run on a Context, no later sequence
of `Bind`, `Exec`, `Eval` and `Destroy` calls, returned or panicked, makes its
guest handle non-nil again; and when the handle was non-nil as `Destroy` ran,
or the owned-Value map was already nil (the handle was nil only together with
a nil map), no such sequence makes the owned-Value map non-empty again: it
stays the nil map. -/
theorem no_transition_out_of_Destroyed (e : Env HostVal Value) (s : State HostVal Value)
    (ops : List (Op HostVal)) :
    (afterDestroy e s ops).ctx.context = none ∧
    ((s.ctx.context = none → s.ctx.values = none) →
      (afterDestroy e s ops).ctx.values = none ∧ owned (afterDestroy e s ops).ctx = []) := by
  refine ⟨afterDestroy_context e s ops, fun hinv => ?_⟩
  have h := run_destroyed e ops _ (Destroy_context e s) (Destroy_values e s hinv)
  exact ⟨h.2, by unfold afterDestroy owned; rw [h.2]⟩

theorem no_transition_out_of_Destroyed_witness :
    (sampleBound.ctx.context = none → sampleBound.ctx.values = none) ∧
    (afterDestroy sampleEnv sampleBound
      [Op.Bind "y" 5, Op.Exec "a.php", Op.Eval "1;", Op.Destroy, Op.Bind "x" 0]).ctx.context
        = none ∧
    (afterDestroy sampleEnv sampleBound
      [Op.Bind "y" 5, Op.Exec "a.php", Op.Eval "1;", Op.Destroy, Op.Bind "x" 0]).ctx.values
        = none :=
  ⟨fun h => by simp [sampleBound, sampleState, Bind, sampleEnv] at h,
    (no_transition_out_of_Destroyed sampleEnv sampleBound _).1,
    ((no_transition_out_of_Destroyed sampleEnv sampleBound _).2
      (fun h => by simp [sampleBound, sampleState, Bind, sampleEnv] at h)).1⟩

/-- Claim C10: every Context a successful `NewContext` returns starts with an
empty, non-nil owned-Value map and an empty, non-nil `Header` map; in every
state reached from it by `Bind`, `Exec` and `Eval` calls without `Destroy` the
owned-Value map is still non-nil; and no `Bind` on such a state panics on the
map write. -/
theorem NewContext_values_never_nil (e : Env HostVal Value) (t : List (Call HostVal Value))
    (ctx : Context Value) (h : (NewContext e t).2 = (some ctx, none)) :
    ctx.values = some [] ∧ ctx.Header = some [] ∧
    ∀ ops : List (Op HostVal), (∀ op ∈ ops, op ≠ Op.Destroy) →
      (run e ⟨ctx, (NewContext e t).1⟩ ops).ctx.values ≠ none ∧
      ∀ name val msg,
        (Bind e (run e ⟨ctx, (NewContext e t).1⟩ ops) name val).2 ≠ Ret.panic msg := by
  have hc := NewContext_ok e t ctx h
  have hv : ctx.values = some [] := by rw [hc]
  refine ⟨hv, by rw [hc], fun ops hops => ?_⟩
  have hr := run_values_ne_none e ops ⟨ctx, (NewContext e t).1⟩ hops (by simp [hv])
  exact ⟨hr, fun name val msg => Bind_no_panic e _ name val hr msg⟩

theorem NewContext_values_never_nil_witness :
    (NewContext sampleEnv []).2 = (some sampleState.ctx, none) ∧
    sampleState.ctx.values = some [] ∧ sampleState.ctx.Header = some [] ∧
    (run sampleEnv ⟨sampleState.ctx, (NewContext sampleEnv []).1⟩
      [Op.Bind "x" 5, Op.Eval "1;"]).ctx.values ≠ none :=
  ⟨rfl, (NewContext_values_never_nil sampleEnv [] sampleState.ctx rfl).1,
    (NewContext_values_never_nil sampleEnv [] sampleState.ctx rfl).2.1,
    ((NewContext_values_never_nil sampleEnv [] sampleState.ctx rfl).2.2
      [Op.Bind "x" 5, Op.Eval "1;"] (by simp)).1⟩

end GoPhp
